import Mathlib

/-!
Verification development for the HKMA data-extraction tool (`app.py`).

The program fetches paginated time-series records from the HKMA API,
normalizes them into a date-sorted table, keeps range-selection state for
two date inputs mirrored by one slider, classifies selected variables onto
a primary (left) or secondary (right) chart axis, and plots them.

This file gives a shallow embedding of those parts: raw records are
association lists from field names to optional string values, a pandas
DataFrame is a list of such rows together with its column list, dates are
encoded as natural numbers `y*10000 + m*100 + d` (order-isomorphic to
chronological order on valid dates), and the paginated fetch loop is a
fuel-indexed recursion over a page-response function.
-/

/-! ### String helpers (modelling Python `in` on `str` and `.lower()`) -/

/-- Whether `p` is a leading segment of `h` (character lists). -/
def leadSeg : List Char → List Char → Bool
  | [], _ => true
  | _ :: _, [] => false
  | a :: as, b :: bs => a == b && leadSeg as bs

/-- Helper scan for substring containment on character lists. -/
def subScan (p : List Char) : List Char → Bool
  | [] => leadSeg p []
  | c :: cs => leadSeg p (c :: cs) || subScan p cs

/-- Python `needle in hay` on strings: substring containment. -/
def containsSub (needle hay : String) : Bool :=
  subScan needle.data hay.data

/-- Python `str.lower()` (character-wise; the keywords in the program are
ASCII or Chinese, where this agrees with Python). -/
def lowerStr (s : String) : String :=
  ⟨s.data.map Char.toLower⟩

/-! ### Dates and raw records -/

/-- Value of a nonempty all-digit character list, else `none`. -/
def digitsVal (cs : List Char) : Option Nat :=
  if cs.isEmpty then none
  else if cs.all Char.isDigit then
    some (cs.foldl (fun a c => a * 10 + (c.toNat - 48)) 0)
  else none

/-- Split a character list at the dash separators. -/
def splitDash : List Char → List (List Char)
  | [] => [[]]
  | c :: cs =>
    let r := splitDash cs
    if c == Char.ofNat 45 then [] :: r
    else
      match r with
      | [] => [[c]]
      | g :: gs => (c :: g) :: gs

/-- `pd.to_datetime(_, errors="coerce")` on the date strings this API
serves: ISO `YYYY-MM-DD` (daily sources) or `YYYY-MM` (monthly sources),
encoded as `y*10000 + m*100 + d`; anything else coerces to `NaT`
(`none`). -/
def parseISO (s : String) : Option Nat :=
  match (splitDash s.data).map digitsVal with
  | [some y, some m, some d] =>
      if 1 ≤ m ∧ m ≤ 12 ∧ 1 ≤ d ∧ d ≤ 31 then some (y * 10000 + m * 100 + d) else none
  | [some y, some m] =>
      if 1 ≤ m ∧ m ≤ 12 then some (y * 10000 + m * 100 + 1) else none
  | _ => none

/-- One raw API record: field name to value; `none` is a JSON null. -/
abbrev Row := List (String × Option String)

/-- Field access: `none` for an absent field or a null value (both become
`NaN` in the DataFrame). -/
def getVal (r : Row) (c : String) : Option String :=
  (r.lookup c).join

/-- Parsed date of a field value: null and unparseable values give `NaT`. -/
def parseDate (v : Option String) : Option Nat :=
  v.bind parseISO

/-- Columns of `pd.DataFrame(all_records)`: union of the records' field
names in first-appearance order. -/
def dfColumns (records : List Row) : List String :=
  records.foldl
    (fun acc r => r.foldl (fun acc2 kv => if acc2.contains kv.1 then acc2 else acc2 ++ [kv.1]) acc)
    []

/-- First candidate name present among the columns
(`for col in cands: if col in df.columns: ...`). -/
def firstPresent (cands cols : List String) : Option String :=
  cands.find? (fun c => cols.contains c)

/-- The candidate list of `fetch_hkma_data` (app.py line 110). -/
def possible_date_cols : List String :=
  ["end_of_day", "end_of_month", "date", "observation_date"]

/-- Date-column discovery inside `fetch_hkma_data` (app.py lines 109-114). -/
def findDateCol (records : List Row) : Option String :=
  firstPresent possible_date_cols (dfColumns records)

/-! ### Normalization (`fetch_hkma_data`, app.py lines 107-122)

The date column is parsed with `errors="coerce"`, `NaT` rows are dropped,
rows outside `[target_start, target_end]` are dropped, and the remainder is
sorted ascending by the parsed date.  A processed row is modelled as the
parsed date paired with the original record (the parsed value overwrites
the date column in place, so the column set is unchanged). -/

/-- `pd.to_datetime` + `dropna`: rows paired with their parsed date; rows
whose date is null or unparseable are dropped. -/
def parsedRows (records : List Row) (dc : String) : List (Nat × Row) :=
  records.filterMap (fun r => (parseDate (getVal r dc)).map (fun d => (d, r)))

/-- The range mask `(df[dc] >= target_start) & (df[dc] <= target_end)`. -/
def rangeRows (records : List Row) (dc : String) (s e : Nat) : List (Nat × Row) :=
  (parsedRows records dc).filter (fun p => decide (s ≤ p.1) && decide (p.1 ≤ e))

/-- Ordering of processed rows by parsed date (the `sort_values` key). -/
def dateLe (a b : Nat × Row) : Prop := a.1 ≤ b.1

instance : DecidableRel dateLe := fun a b => (inferInstance : Decidable (a.1 ≤ b.1))

instance : IsTotal (Nat × Row) dateLe := ⟨fun a b => Nat.le_total a.1 b.1⟩

instance : IsTrans (Nat × Row) dateLe := ⟨fun _ _ _ hab hbc => Nat.le_trans hab hbc⟩

/-- `df.loc[mask].sort_values(date_col)`: the in-range rows sorted
ascending by parsed date.  `sort_values` sorts by the key column; its
default kind leaves the relative order of tied keys unspecified, so the
sort is modelled here by a canonical sorted rearrangement — the tie order
the library's default kind actually produces is modelled separately by
`aquicksortNumpy` below. -/
def normalizeRows (records : List Row) (dc : String) (s e : Nat) : List (Nat × Row) :=
  List.insertionSort dateLe (rangeRows records dc s e)

/-- Result of `fetch_hkma_data` after the paging loop: either the raw
DataFrame (no date column was discovered, lines 116/122 skip processing)
or the processed one.  `cols` records `df.columns`, which row dropping
does not change. -/
inductive DF
  | raw (cols : List String) (rows : List Row)
  | proc (cols : List String) (dc : String) (rows : List (Nat × Row))
  deriving DecidableEq

/-- The DataFrame-building tail of `fetch_hkma_data` (app.py lines
105-122), applied to the records accumulated by the paging loop. -/
def fetch_df (records : List Row) (s e : Nat) : DF :=
  if records.isEmpty then .raw [] []
  else
    match findDateCol records with
    | none => .raw (dfColumns records) records
    | some dc => .proc (dfColumns records) dc (normalizeRows records dc s e)

/-- `df.empty`. -/
def dfEmpty : DF → Bool
  | .raw _ rows => rows.isEmpty
  | .proc _ _ rows => rows.isEmpty

/-- `df.columns`. -/
def dfCols : DF → List String
  | .raw cols _ => cols
  | .proc cols _ _ => cols

/-! ### Paginated fetch loop (`fetch_hkma_data`, app.py lines 81-105)

`pagesize = 1000`, `offset = 0`; each iteration requests one page and
either extends `all_records` and advances `offset` by `pagesize`, breaks
on an empty page, or breaks on an exception after showing `st.error`.
A page response is the record list of `result.records`, or an error for a
transport failure, a non-success status or a malformed body.  The
`while True` loop is embedded with a fuel parameter; the theorems show the
result is fuel-independent once the fuel covers the terminating page. -/

/-- Response of one page request. -/
inductive PageResp
  | ok (rows : List Row)
  | err
  deriving DecidableEq

/-- Output of the paging loop: accumulated records, the offsets requested
(in request order), and whether `st.error` was shown.  Only `records`
flows into the returned DataFrame; the error display is a UI side
effect. -/
structure FetchOut where
  records : List Row
  offsets : List Nat
  uiError : Bool
  deriving DecidableEq

/-- The `while True` paging loop. -/
def fetchLoop (pages : Nat → PageResp) : Nat → Nat → List Row → List Nat → FetchOut
  | 0, _, acc, offs => ⟨acc, offs, false⟩
  | fuel + 1, offset, acc, offs =>
    match pages offset with
    | .err => ⟨acc, offs ++ [offset], true⟩
    | .ok rs =>
      if rs.isEmpty then ⟨acc, offs ++ [offset], false⟩
      else fetchLoop pages fuel (offset + 1000) (acc ++ rs) (offs ++ [offset])

/-- The paging loop started as in the program: offset 0, nothing
accumulated. -/
def fetch_records (pages : Nat → PageResp) (fuel : Nat) : FetchOut :=
  fetchLoop pages fuel 0 [] []

/-- Full `fetch_hkma_data`: paging loop followed by DataFrame building.
The function returns only the DataFrame — `uiError` does not reach the
caller. -/
def fetch_hkma_data (pages : Nat → PageResp) (fuel : Nat) (s e : Nat) : DF :=
  fetch_df (fetch_records pages fuel).records s e

/-- Rows carried by a page response (errors deliver no rows). -/
def respRows : PageResp → List Row
  | .ok rs => rs
  | .err => []

/-! ### Range-selection state (app.py lines 125-130, 213-248)

Session state: `plot_start`, `plot_end` and the mirrored slider value
`slider_range`.  The two `st.date_input` widgets write the edited bound
into session state and then run `update_slider`; the slider writes its
pair and runs `update_inputs`. -/

/-- The session state the range controls keep in sync. -/
structure RState where
  plot_start : Nat
  plot_end : Nat
  slider_range : Nat × Nat
  deriving DecidableEq

/-- Callback `update_slider` (app.py lines 224-225): mirror the bound
inputs into the slider value. -/
def update_slider (s : RState) : RState :=
  { s with slider_range := (s.plot_start, s.plot_end) }

/-- Callback `update_inputs` (app.py lines 222-223): copy the slider pair
into the bound inputs. -/
def update_inputs (s : RState) : RState :=
  { s with plot_start := s.slider_range.1, plot_end := s.slider_range.2 }

/-- A start-bound edit: the widget stores the new value under
`plot_start`, then `on_change=update_slider` runs. -/
def boundUpdateStart (s : RState) (v : Nat) : RState :=
  update_slider { s with plot_start := v }

/-- An end-bound edit: the widget stores the new value under `plot_end`,
then `on_change=update_slider` runs. -/
def boundUpdateEnd (s : RState) (v : Nat) : RState :=
  update_slider { s with plot_end := v }

/-- An interval-control drag: `slider_range` is stored, then
`on_change=update_inputs` runs. -/
def intervalUpdate (s : RState) (v : Nat × Nat) : RState :=
  update_inputs { s with slider_range := v }

/-- Re-initialization of the plot bounds after the Dataset is replaced
(app.py lines 216-219): a bound that is missing is set to the dataset
edge; an existing `plot_start` is reset only when it is below the dataset
minimum, an existing `plot_end` only when it is above the dataset maximum.
`none` models deleted keys (the source-switch branch, lines 126-130,
deletes both). -/
def clampInit (prev : Option (Nat × Nat)) (minD maxD : Nat) : Nat × Nat :=
  (match prev with
   | none => minD
   | some (ps, _) => if ps < minD then minD else ps,
   match prev with
   | none => maxD
   | some (_, pe) => if pe > maxD then maxD else pe)

/-- Dataset replacement as seen by the range state: on a source switch the
bound keys are deleted before re-initialization; on a same-source re-fetch
they are kept. -/
def datasetReplace (sameSource : Bool) (prev : Option (Nat × Nat)) (minD maxD : Nat) :
    Nat × Nat :=
  clampInit (if sameSource then prev else none) minD maxD

/-! ### Variable metadata and axis classification (app.py lines 51-55, 261-290) -/

/-- Resolved display metadata of a variable. -/
structure DisplayInfo where
  label : String
  unit : String
  deriving DecidableEq

/-- A `variable_config.csv` entry; `none` fields model `NaN` cells. -/
abbrev MetaTable := List (String × (Option String × Option String))

/-- `get_display_info` (app.py lines 51-55): `VARIABLE_META.get(var_name,
{"label": var_name, "unit": ""})`, with `NaN` unit replaced by `""` and
`NaN` label replaced by the variable code. -/
def get_display_info (meta : MetaTable) (v : String) : DisplayInfo :=
  match meta.lookup v with
  | none => ⟨v, ""⟩
  | some (lab, un) => ⟨lab.getD v, un.getD ""⟩

/-- The `is_rate` heuristic (app.py lines 267-280): the lower-cased unit
contains an annualized-rate or percent marker, or the lower-cased label
contains one of the fixed rate/yield/exchange-rate/hibor/index keywords. -/
def is_rate (info : DisplayInfo) : Bool :=
  let u := lowerStr info.unit
  let l := lowerStr info.label
  containsSub "年率" u || containsSub "%" u || containsSub "利率" l ||
  containsSub "收益率" l || containsSub "汇率" l || containsSub "hibor" l ||
  containsSub "指数" l

/-- The classification loop (app.py lines 263-285), before the degeneracy
fallback: each selected column goes to `secondary_vars` when `is_rate`
holds of its display info, otherwise to `primary_vars`, keeping selection
order. -/
def classifyStep (meta : MetaTable) (sel : List String) : List String × List String :=
  (sel.filter (fun c => !is_rate (get_display_info meta c)),
   sel.filter (fun c => is_rate (get_display_info meta c)))

/-- Classification with the degeneracy fallback (app.py lines 287-290):
`if not primary_vars and secondary_vars: primary_vars = secondary_vars;
secondary_vars = []`. -/
def classify (meta : MetaTable) (sel : List String) : List String × List String :=
  let p := (classifyStep meta sel).1
  let s := (classifyStep meta sel).2
  if p.isEmpty && !s.isEmpty then (s, []) else (p, s)

/-! ### Plottable-column selection (app.py lines 204-206) -/

/-- `exclude_keywords` (app.py line 205). -/
def exclude_keywords : List String :=
  ["id", "year", "month", "day", "rec_count"]

/-- `plot_options` (app.py line 206): numeric columns whose lower-cased
name contains none of the exclusion keywords as a substring. -/
def plot_options (numeric_cols : List String) : List String :=
  numeric_cols.filter (fun c => !exclude_keywords.any (fun k => containsSub k (lowerStr c)))

/-! ### Tie order of the default sort kind (stability analysis)

`df.sort_values(date_col)` (app.py line 120) uses the default
`kind="quicksort"`, which pandas implements by `numpy.argsort` with the
introspective argsort of npysort (`aquicksort_`): an index array is
permuted by median-of-three Hoare partitioning while a segment is longer
than `SMALL_QUICKSORT = 15` elements, small segments are finished by
insertion sort, and a heapsort fallback guards against deep recursion
(numpy counts partition steps against `2*floor(log2 n)` with one global
counter; it is modelled here per branch, which agrees on every input whose
partitioning is shallow, in particular on all inputs analysed below).
Comparisons are strict (`<`) on the key values, so the relative order of
tied keys is whatever the partition swaps leave behind — nothing restores
arrival order. -/

/-- Index read with default 0 (all accesses in the algorithm are in
bounds). -/
def idxGet (t : List Nat) (i : Nat) : Nat := t.getD i 0

/-- Key read through the index array: `v[t[i]]`. -/
def keyAt (v : List Int) (t : List Nat) (i : Nat) : Int := v.getD (idxGet t i) 0

/-- Swap two positions of the index array. -/
def swapIdx (t : List Nat) (i j : Nat) : List Nat :=
  let a := idxGet t i
  let b := idxGet t j
  (t.set i b).set j a

/-- Inner shift of the argsort insertion sort: while `pj > pl` and
`vp < v[*pk]`, copy `*pk` one slot right and step left. -/
def insShift (v : List Int) (pl : Nat) (vp : Int) : Nat → List Nat → Nat → List Nat × Nat
  | 0, t, pj => (t, pj)
  | fuel + 1, t, pj =>
    if pj > pl && decide (vp < keyAt v t (pj - 1)) then
      insShift v pl vp fuel (t.set pj (idxGet t (pj - 1))) (pj - 1)
    else (t, pj)

/-- Outer loop of the argsort insertion sort over positions
`pl+1 .. pr`. -/
def insLoop (v : List Int) (pl pr : Nat) : Nat → List Nat → Nat → List Nat
  | 0, t, _ => t
  | fuel + 1, t, pi =>
    if pi > pr then t
    else
      let vi := idxGet t pi
      let vp := v.getD vi 0
      let (t2, pj) := insShift v pl vp (pi + 1) t pi
      insLoop v pl pr fuel (t2.set pj vi) (pi + 1)

/-- Argsort insertion sort of the segment `pl .. pr` (numpy `aquicksort_`
finishes every short segment with this loop). -/
def insSortSeg (v : List Int) (t : List Nat) (pl pr : Nat) : List Nat :=
  insLoop v pl pr (pr + 2 - pl) t (pl + 1)

/-- Sift step of numpy's argsort heapsort `aheapsort_` on the 1-based
segment view: positions are 1-based over `pl .. pr` (`a[i]` is
`t[pl+i-1]`). -/
def siftDown (v : List Int) (pl n : Nat) (tmp : Nat) : Nat → List Nat → Nat → Nat → List Nat
  | 0, t, i, _ => t.set (pl + i - 1) tmp
  | fuel + 1, t, i, j =>
    if j ≤ n then
      let j2 := if j < n && decide (keyAt v t (pl + j - 1) < keyAt v t (pl + j)) then j + 1 else j
      if decide ((v.getD tmp 0) < keyAt v t (pl + j2 - 1)) then
        siftDown v pl n tmp fuel (t.set (pl + i - 1) (idxGet t (pl + j2 - 1))) j2 (j2 + j2)
      else t.set (pl + i - 1) tmp
    else t.set (pl + i - 1) tmp

/-- Heap construction phase of `aheapsort_` (l from n/2 down to 1). -/
def heapBuild (v : List Int) (pl n : Nat) : Nat → List Nat → List Nat
  | 0, t => t
  | l + 1, t =>
    if l + 1 ≥ 1 then
      let tmp := idxGet t (pl + l)
      heapBuild v pl n l (siftDown v pl n tmp (n + 2) t (l + 1) ((l + 1) * 2))
    else t

/-- Extraction phase of `aheapsort_` (n down to 2). -/
def heapExtract (v : List Int) (pl : Nat) : Nat → List Nat → List Nat
  | 0, t => t
  | 1, t => t
  | n + 1, t =>
    let tmp := idxGet t (pl + n)
    let t2 := (t.set (pl + n) (idxGet t pl))
    heapExtract v pl n (siftDown v pl n tmp (n + 2) t2 1 2)

/-- numpy `aheapsort_` of the segment `pl .. pr`. -/
def aheapsortSeg (v : List Int) (t : List Nat) (pl pr : Nat) : List Nat :=
  let n := pr + 1 - pl
  heapExtract v pl n (heapBuild v pl n (n / 2) t)

/-- The `do ++pi; while (v[*pi] < vp)` scan. -/
def scanUp (v : List Int) (t : List Nat) (vp : Int) : Nat → Nat → Nat
  | 0, i => i
  | fuel + 1, i =>
    if keyAt v t (i + 1) < vp then scanUp v t vp fuel (i + 1) else i + 1

/-- The `do --pj; while (vp < v[*pj])` scan. -/
def scanDown (v : List Int) (t : List Nat) (vp : Int) : Nat → Nat → Nat
  | 0, j => j
  | fuel + 1, j =>
    if vp < keyAt v t (j - 1) then scanDown v t vp fuel (j - 1) else j - 1

/-- Hoare partition scan: advance both cursors, swap and repeat while they
have not crossed; returns the final index array and left cursor. -/
def hoareScan (v : List Int) (vp : Int) : Nat → List Nat → Nat → Nat → List Nat × Nat
  | 0, t, i, _ => (t, i)
  | fuel + 1, t, i, j =>
    let i2 := scanUp v t vp (t.length + 2) i
    let j2 := scanDown v t vp (t.length + 2) j
    if i2 ≥ j2 then (t, i2)
    else hoareScan v vp fuel (swapIdx t i2 j2) i2 j2

/-- Main recursion of numpy `aquicksort_` on the segment `pl .. pr`:
partition while the segment is longer than `SMALL_QUICKSORT = 15`, fall
back to heapsort when the depth budget is exhausted, finish short
segments with insertion sort. -/
def aqsMain (v : List Int) : Nat → List Nat → Nat → Nat → Nat → List Nat
  | 0, t, _, _, _ => t
  | fuel + 1, t, pl, pr, depth =>
    if pr ≤ pl + 15 then insSortSeg v t pl pr
    else if depth = 0 then aheapsortSeg v t pl pr
    else
      let pm := pl + (pr - pl) / 2
      let t1 := if keyAt v t pm < keyAt v t pl then swapIdx t pm pl else t
      let t2 := if keyAt v t1 pr < keyAt v t1 pm then swapIdx t1 pr pm else t1
      let t3 := if keyAt v t2 pm < keyAt v t2 pl then swapIdx t2 pm pl else t2
      let vp := keyAt v t3 pm
      let t4 := swapIdx t3 pm (pr - 1)
      let (t5, pi) := hoareScan v vp (t4.length + 2) t4 pl (pr - 1)
      let t6 := swapIdx t5 pi (pr - 1)
      aqsMain v fuel (aqsMain v fuel t6 pl (pi - 1) (depth - 1)) (pi + 1) pr (depth - 1)

/-- Fuel-based floor base-2 logarithm (`npy_get_msb`). -/
def log2fuel : Nat → Nat → Nat
  | 0, _ => 0
  | fuel + 1, n => if n ≥ 2 then log2fuel fuel (n / 2) + 1 else 0

/-- numpy's introspective argsort (`npy_aquicksort`), the sort pandas
`sort_values` performs for the default `kind="quicksort"`: returns the
permutation of row positions that orders the keys. -/
def aquicksortNumpy (v : List Int) : List Nat :=
  if v.length ≤ 1 then List.range v.length
  else aqsMain v (2 * v.length + 2) (List.range v.length) 0 (v.length - 1)
    (2 * log2fuel v.length v.length)

/-- `sort_values` with the library's actual default tie order: take the
processed rows in the order of the argsort permutation of their keys. -/
def sort_values_quick (l : List (Nat × Row)) : List (Nat × Row) :=
  (aquicksortNumpy (l.map (fun p => (p.1 : Int)))).filterMap (fun i => l.get? i)


/-! ### The fetch-button handler (app.py lines 125-154)

After `fetch_hkma_data` returns, the handler re-discovers a date column
with its own, shorter candidate list before accepting the DataFrame into
the session. -/

/-- The handler's candidate list (app.py line 142) — note it lacks
`observation_date`. -/
def handler_date_cols : List String :=
  ["end_of_day", "end_of_month", "date"]

/-- Outcome of the fetch handler: the DataFrame accepted into
`st.session_state["df_all"]` with a success message, the "no date column"
error, or the "no data" warning. -/
inductive FetchOutcome
  | success (df : DF)
  | noDateCol
  | emptyWarn
  deriving DecidableEq

/-- The handler body (app.py lines 140-154): a non-empty DataFrame is
accepted when one of the handler's three candidates is among its columns,
otherwise the "no date column" error is shown; an empty DataFrame gives
the "no data" warning. -/
def run_fetch_handler (records : List Row) (s e : Nat) : FetchOutcome :=
  let df := fetch_df records s e
  if dfEmpty df then .emptyWarn
  else
    match firstPresent handler_date_cols (dfCols df) with
    | some _ => .success df
    | none => .noDateCol

/-! ## Theorems -/

/-- Membership in the range-filtered parsed rows forces the requested
bounds and a successful date parse. -/
theorem mem_rangeRows {records : List Row} {dc : String} {s e : Nat} {p : Nat × Row}
    (hp : p ∈ rangeRows records dc s e) :
    s ≤ p.1 ∧ p.1 ≤ e ∧ parseDate (getVal p.2 dc) = some p.1 := by
  unfold rangeRows at hp
  rcases List.mem_filter.mp hp with ⟨hmem, hpred⟩
  unfold parsedRows at hmem
  rcases List.mem_filterMap.mp hmem with ⟨r, hr, hfr⟩
  cases hpd : parseDate (getVal r dc) with
  | none => rw [hpd] at hfr; exact absurd hfr (by simp)
  | some d =>
    rw [hpd] at hfr
    simp only [Option.map_some'] at hfr
    cases hfr
    simp only [decide_eq_true_eq, Bool.and_eq_true] at hpred
    exact ⟨hpred.1, hpred.2, hpd⟩

/-- **C1.** Whenever `fetch_hkma_data` discovers a date column and returns
a processed Dataset, every returned row's parsed date lies in the
requested inclusive range, every returned row's date parses (null or
unparseable dates were dropped, not errored), the rows are sorted
non-decreasingly by the date column, and the rows are exactly the
parseable in-range rows of the input (a permutation of them). -/
theorem C1_fetch_dataset_range_sorted (records : List Row) (s e : Nat)
    (cols : List String) (dc : String) (rows : List (Nat × Row))
    (h : fetch_df records s e = DF.proc cols dc rows) :
    (∀ p ∈ rows, s ≤ p.1 ∧ p.1 ≤ e ∧ parseDate (getVal p.2 dc) = some p.1) ∧
    List.Sorted dateLe rows ∧
    rows.Perm (rangeRows records dc s e) := by
  unfold fetch_df at h
  split at h
  · exact absurd h (by simp)
  · split at h
    · exact absurd h (by simp)
    · rw [DF.proc.injEq] at h
      obtain ⟨hc, hd, hr⟩ := h
      subst hd
      subst hr
      exact ⟨fun p hp => mem_rangeRows ((List.perm_insertionSort dateLe _).mem_iff.mp hp),
        List.sorted_insertionSort dateLe _, List.perm_insertionSort dateLe _⟩

/-- Concrete record used by several witnesses. -/
def recW : Row := [("end_of_day", some "2023-01-02"), ("v", some "1")]

/-- Witness for C1 at a concrete one-record fetch. -/
theorem C1_fetch_dataset_range_sorted_witness :
    (∀ p ∈ [((20230102 : Nat), recW)],
        20230101 ≤ p.1 ∧ p.1 ≤ 20231231 ∧ parseDate (getVal p.2 "end_of_day") = some p.1) ∧
    List.Sorted dateLe [((20230102 : Nat), recW)] ∧
    List.Perm [((20230102 : Nat), recW)] (rangeRows [recW] "end_of_day" 20230101 20231231) :=
  C1_fetch_dataset_range_sorted [recW] 20230101 20231231 ["end_of_day", "v"] "end_of_day"
    [((20230102 : Nat), recW)] (by decide)

/-- Core run lemma for the paging loop: when the pages at offsets
`k, k+1000, …, k+1000*(j-1)` are non-empty and the page at `k+1000*j` is
terminal (empty, or an error), the loop requests exactly those offsets in
order, accumulates exactly the records of the non-empty pages, and sets
the UI-error flag exactly for the error terminal. -/
theorem fetchLoop_run (pages : Nat → PageResp) (stop : PageResp) (flag : Bool)
    (hstop : stop = PageResp.ok [] ∧ flag = false ∨ stop = PageResp.err ∧ flag = true) :
    ∀ (j fuel k : Nat) (acc : List Row) (offs : List Nat), j < fuel →
      (∀ i, i < j → ∃ rs, pages (k + 1000 * i) = PageResp.ok rs ∧ rs ≠ []) →
      pages (k + 1000 * j) = stop →
      fetchLoop pages fuel k acc offs =
        ⟨acc ++ ((List.range j).map (fun i => respRows (pages (k + 1000 * i)))).flatten,
         offs ++ (List.range (j + 1)).map (fun i => k + 1000 * i), flag⟩ := by
  intro j
  induction j with
  | zero =>
    intro fuel k acc offs hfuel _ hterm
    match fuel with
    | fuel + 1 =>
      simp only [Nat.mul_zero, Nat.add_zero] at hterm
      rcases hstop with ⟨hs, hf⟩ | ⟨hs, hf⟩ <;> subst hs <;> subst hf <;>
        simp [fetchLoop, hterm, List.range_succ]
  | succ j ih =>
    intro fuel k acc offs hfuel hpre hterm
    match fuel, hfuel with
    | fuel + 1, hfuel2 =>
      obtain ⟨rs0, h0, hne0⟩ := hpre 0 (Nat.succ_pos j)
      simp only [Nat.mul_zero, Nat.add_zero] at h0
      have hstep : fetchLoop pages (fuel + 1) k acc offs =
          fetchLoop pages fuel (k + 1000) (acc ++ rs0) (offs ++ [k]) := by
        rcases rs0 with _ | ⟨r0, rs0⟩
        · exact absurd rfl hne0
        · simp [fetchLoop, h0]
      rw [hstep]
      rw [ih fuel (k + 1000) (acc ++ rs0) (offs ++ [k]) (by omega)
        (fun i hi => by
          obtain ⟨rs, hr, hn⟩ := hpre (i + 1) (by omega)
          exact ⟨rs, by rw [← hr]; congr 1; ring, hn⟩)
        (by rw [← hterm]; congr 1; ring)]
      have h00 : respRows (pages (k + 1000 * 0)) = rs0 := by
        rw [show k + 1000 * 0 = k by ring, h0]
        rfl
      have hmapeq : (List.range j).map (fun i => respRows (pages (k + 1000 + 1000 * i))) =
          (List.range j).map ((fun i => respRows (pages (k + 1000 * i))) ∘ Nat.succ) := by
        apply List.map_congr_left
        intro a _
        have harg : k + 1000 + 1000 * a = k + 1000 * Nat.succ a := by omega
        simp only [Function.comp_apply, harg]
      have hoffeq : (List.range (j + 1)).map (fun i => k + 1000 + 1000 * i) =
          (List.range (j + 1)).map ((fun i => k + 1000 * i) ∘ Nat.succ) := by
        apply List.map_congr_left
        intro a _
        simp only [Function.comp_apply]
        omega
      rw [FetchOut.mk.injEq]
      refine ⟨?_, ?_, rfl⟩
      · rw [List.append_assoc, hmapeq, List.range_succ_eq_map, List.map_cons,
          List.flatten_cons, List.map_map, h00]
      · rw [List.append_assoc, hoffeq, List.range_succ_eq_map (j + 1), List.map_cons,
          List.map_map]
        simp

/-- The offsets requested by the paging loop from any starting offset form
an arithmetic progression with step 1000 appended to the prior list. -/
theorem fetchLoop_offsets (pages : Nat → PageResp) :
    ∀ (fuel k : Nat) (acc : List Row) (offs : List Nat), ∃ m,
      (fetchLoop pages fuel k acc offs).offsets =
        offs ++ (List.range m).map (fun i => k + 1000 * i) := by
  intro fuel
  induction fuel with
  | zero => exact fun k acc offs => ⟨0, by simp [fetchLoop]⟩
  | succ fuel ih =>
    intro k acc offs
    cases hp : pages k with
    | err =>
      refine ⟨1, ?_⟩
      simp only [fetchLoop]
      rw [hp]
      simp [List.range_succ]
    | ok rs =>
      rcases rs with _ | ⟨r0, rs⟩
      · refine ⟨1, ?_⟩
        simp only [fetchLoop]
        rw [hp]
        simp [List.range_succ]
      · obtain ⟨m, hm⟩ := ih (k + 1000) (acc ++ (r0 :: rs)) (offs ++ [k])
        refine ⟨m + 1, ?_⟩
        simp only [fetchLoop]
        rw [hp]
        show (fetchLoop pages fuel (k + 1000) (acc ++ (r0 :: rs)) (offs ++ [k])).offsets = _
        rw [hm, List.append_assoc]
        congr 1
        rw [List.range_succ_eq_map, List.map_cons, List.map_map]
        have hfun : (List.range m).map ((fun i => k + 1000 * i) ∘ Nat.succ) =
            (List.range m).map (fun i => k + 1000 + 1000 * i) := by
          apply List.map_congr_left
          intro a _
          simp only [Function.comp_apply]
          omega
        rw [hfun]
        simp

/-- **C6.** For every page sequence with a first empty page at offset
`1000*j` (all earlier pages non-empty successes of any size), the fetch
loop terminates exactly there: it requests precisely the offsets
`0, 1000, …, 1000*j` — a strictly increasing sequence, so no consumed
offset is ever re-requested — accumulates all records of the earlier
pages in request order, and shows no error. -/
theorem C6_pagination_terminates (pages : Nat → PageResp) (j fuel : Nat)
    (hfuel : j < fuel)
    (hpre : ∀ i, i < j → ∃ rs, pages (1000 * i) = PageResp.ok rs ∧ rs ≠ [])
    (hstop : pages (1000 * j) = PageResp.ok []) :
    fetch_records pages fuel =
      ⟨((List.range j).map (fun i => respRows (pages (1000 * i)))).flatten,
       (List.range (j + 1)).map (fun i => 1000 * i), false⟩ ∧
    List.Pairwise (· < ·) ((fetch_records pages fuel).offsets) := by
  have h := fetchLoop_run pages (PageResp.ok []) false (Or.inl ⟨rfl, rfl⟩) j fuel 0 [] []
    hfuel (by simpa using hpre) (by simpa using hstop)
  have h2 : fetch_records pages fuel =
      ⟨((List.range j).map (fun i => respRows (pages (1000 * i)))).flatten,
       (List.range (j + 1)).map (fun i => 1000 * i), false⟩ := by
    unfold fetch_records
    rw [h]
    simp
  refine ⟨h2, ?_⟩
  rw [h2]
  exact (List.pairwise_lt_range (j + 1)).map (fun i => 1000 * i)
    (fun a b hab => show 1000 * a < 1000 * b by omega)

/-- Concrete page row used by the loop witnesses. -/
def pageRowW : Row := [("end_of_day", some "2023-01-03"), ("v", some "2")]

/-- A one-page sequence: records at offset 0, empty from offset 1000 on. -/
def pagesOneW : Nat → PageResp :=
  fun o => if o = 0 then PageResp.ok [pageRowW] else PageResp.ok []

/-- Witness for C6 at a concrete one-page sequence. -/
theorem C6_pagination_terminates_witness :
    fetch_records pagesOneW 3 =
      ⟨((List.range 1).map (fun i => respRows (pagesOneW (1000 * i)))).flatten,
       (List.range 2).map (fun i => 1000 * i), false⟩ ∧
    List.Pairwise (· < ·) ((fetch_records pagesOneW 3).offsets) :=
  C6_pagination_terminates pagesOneW 1 3 (by omega)
    (fun i hi => ⟨[pageRowW], by
      have hz : i = 0 := by omega
      subst hz
      rfl, by simp⟩)
    (by decide)

/-- A sequence whose second page fails: records at offset 0, a transport
error from offset 1000 on. -/
def pagesErrW : Nat → PageResp :=
  fun o => if o = 0 then PageResp.ok [pageRowW] else PageResp.err

/-- Like `pagesErrW` but the second page succeeds with zero records. -/
def pagesDoneW : Nat → PageResp :=
  fun o => if o = 0 then PageResp.ok [pageRowW] else PageResp.ok []

/-- **C7 counterexample.** A fetch whose second page fails with a
transport error and a fetch that completes successfully produce exactly
the same return value: the error is shown in the UI (`uiError`) but the
function's result — all the caller receives — is indistinguishable from a
successful complete fetch, refuting the claim that the error is surfaced
to the caller as a distinct condition. -/
theorem C7_counterexample :
    pagesErrW 1000 = PageResp.err ∧
    pagesDoneW 1000 = PageResp.ok [] ∧
    (fetch_records pagesErrW 5).uiError = true ∧
    (fetch_records pagesDoneW 5).uiError = false ∧
    fetch_hkma_data pagesErrW 5 20230101 20231231 =
      fetch_hkma_data pagesDoneW 5 20230101 20231231 := by
  refine ⟨rfl, rfl, ?_, ?_, ?_⟩ <;> decide

/-- **C7 (amended).** If the page at offset `1000*j` fails (earlier pages
non-empty successes), the loop aborts at that page with no retry — the
offsets requested are exactly `0, …, 1000*j`, each once — the records of
the completed pages are kept as a partial result, and the error is
displayed in the UI (`uiError = true`); the function's return value alone
does not distinguish this from a complete fetch (see the
counterexample). -/
theorem C7_error_aborts_partial (pages : Nat → PageResp) (j fuel : Nat)
    (hfuel : j < fuel)
    (hpre : ∀ i, i < j → ∃ rs, pages (1000 * i) = PageResp.ok rs ∧ rs ≠ [])
    (herr : pages (1000 * j) = PageResp.err) :
    fetch_records pages fuel =
      ⟨((List.range j).map (fun i => respRows (pages (1000 * i)))).flatten,
       (List.range (j + 1)).map (fun i => 1000 * i), true⟩ := by
  have h := fetchLoop_run pages PageResp.err true (Or.inr ⟨rfl, rfl⟩) j fuel 0 [] []
    hfuel (by simpa using hpre) (by simpa using herr)
  unfold fetch_records
  rw [h]
  simp

/-- Witness for the amended C7 at a concrete failing sequence. -/
theorem C7_error_aborts_partial_witness :
    fetch_records pagesErrW 5 =
      ⟨((List.range 1).map (fun i => respRows (pagesErrW (1000 * i)))).flatten,
       (List.range 2).map (fun i => 1000 * i), true⟩ :=
  C7_error_aborts_partial pagesErrW 1 5 (by omega)
    (fun i hi => ⟨[pageRowW], by
      have hz : i = 0 := by omega
      subst hz
      rfl, by simp⟩)
    (by decide)

/-- **C2 counterexample.** From the valid state (5, 10) (slider mirrored),
editing the start bound to 12 — which makes selectedStart > selectedEnd —
does not leave the state unchanged: `update_slider` performs no
validation, so the invalid pair is stored and mirrored into the slider. -/
theorem C2_counterexample :
    (12 : Nat) > 10 ∧
    boundUpdateStart ⟨5, 10, (5, 10)⟩ 12 = ⟨12, 10, (12, 10)⟩ ∧
    boundUpdateStart ⟨5, 10, (5, 10)⟩ 12 ≠ ⟨5, 10, (5, 10)⟩ := by
  refine ⟨by omega, rfl, by decide⟩

/-- **C2 (amended).** A bound-input update always overwrites the edited
bound and mirrors the resulting pair into the interval control, with no
validation: even when the new pair has selectedStart > selectedEnd it is
stored, never rejected, and the previous values are not retained. -/
theorem C2_bound_update_unvalidated (s : RState) (v : Nat) :
    boundUpdateStart s v = ⟨v, s.plot_end, (v, s.plot_end)⟩ ∧
    boundUpdateEnd s v = ⟨s.plot_start, v, (s.plot_start, v)⟩ :=
  ⟨rfl, rfl⟩

/-- **C3 counterexample.** A same-source re-fetch producing a Dataset
spanning [10, 20] while the previous bounds were (30, 40) — entirely above
the new span — yields bounds (30, 20): the start bound is not clamped
down to the dataset maximum, the state is not reset to the new full span,
and selectedStart > selectedEnd in the resulting state. -/
theorem C3_counterexample :
    datasetReplace true (some (30, 40)) 10 20 = (30, 20) ∧
    (datasetReplace true (some (30, 40)) 10 20).1 >
      (datasetReplace true (some (30, 40)) 10 20).2 ∧
    datasetReplace true (some (30, 40)) 10 20 ≠ (10, 20) := by
  refine ⟨rfl, by decide, by decide⟩

/-- **C3 (amended).** On a source switch the bound keys are deleted and
the bounds are re-initialized to the new Dataset's full span.  On a
same-source replacement each bound is clamped only one-sidedly — the
start is raised to the dataset minimum when below it, the end lowered to
the dataset maximum when above it — so bounds overlapping the new span
stay valid and inside it, but a previous range lying entirely on one side
of the new span is not reset and can leave selectedStart > selectedEnd
(see the counterexample). -/
theorem C3_clamp_characterization :
    (∀ (prev : Option (Nat × Nat)) (minD maxD : Nat),
        datasetReplace false prev minD maxD = (minD, maxD)) ∧
    (∀ (ps pe minD maxD : Nat),
        datasetReplace true (some (ps, pe)) minD maxD = (max minD ps, min maxD pe)) ∧
    (∀ (ps pe minD maxD : Nat), ps ≤ pe → minD ≤ maxD → ps ≤ maxD → minD ≤ pe →
        let r := datasetReplace true (some (ps, pe)) minD maxD
        r.1 ≤ r.2 ∧ minD ≤ r.1 ∧ r.2 ≤ maxD) := by
  refine ⟨fun prev minD maxD => rfl, fun ps pe minD maxD => ?_, ?_⟩
  · unfold datasetReplace clampInit
    simp only [if_true]
    rw [Prod.mk.injEq]
    constructor
    · rcases Nat.lt_or_ge ps minD with h | h
      · simp [if_pos h, Nat.max_eq_left (Nat.le_of_lt h)]
      · simp [if_neg (Nat.not_lt.mpr h), Nat.max_eq_right h]
    · rcases Nat.lt_or_ge maxD pe with h | h
      · simp [if_pos h, Nat.min_eq_left (Nat.le_of_lt h)]
      · simp [if_neg (Nat.not_lt.mpr h), Nat.min_eq_right h]
  · intro ps pe minD maxD h1 h2 h3 h4
    unfold datasetReplace clampInit
    simp only [if_true]
    constructor
    · split <;> split <;> omega
    constructor
    · split <;> omega
    · split <;> omega

/-- Witness for the amended C3 at concrete spans. -/
theorem C3_clamp_characterization_witness :
    datasetReplace false (some (30, 40)) 10 20 = (10, 20) ∧
    datasetReplace true (some (12, 18)) 10 20 = (max 10 12, min 20 18) ∧
    ((datasetReplace true (some (12, 18)) 10 20).1 ≤
        (datasetReplace true (some (12, 18)) 10 20).2 ∧
      10 ≤ (datasetReplace true (some (12, 18)) 10 20).1 ∧
      (datasetReplace true (some (12, 18)) 10 20).2 ≤ 20) :=
  ⟨C3_clamp_characterization.1 (some (30, 40)) 10 20,
   C3_clamp_characterization.2.1 12 18 10 20,
   C3_clamp_characterization.2.2 12 18 10 20 (by omega) (by omega) (by omega) (by omega)⟩

/-- A record set whose only date-candidate field is `observation_date`. -/
def obsRecords : List Row :=
  [[("observation_date", some "2023-01-05"), ("v", some "1")]]

/-- **C5 counterexample.** A record set whose only candidate field is
`observation_date` is discovered and fully normalized by
`fetch_hkma_data` (non-empty, in-range result), yet the fetch handler —
whose own candidate list omits `observation_date` — rejects it with the
"no date column" error instead of yielding a usable Dataset. -/
theorem C5_counterexample :
    findDateCol obsRecords = some "observation_date" ∧
    dfEmpty (fetch_df obsRecords 20230101 20231231) = false ∧
    run_fetch_handler obsRecords 20230101 20231231 = FetchOutcome.noDateCol := by
  refine ⟨rfl, ?_, ?_⟩ <;> decide

/-- **C5 (amended).** `fetch_hkma_data` discovers the date field as the
first present candidate among `end_of_day`, `end_of_month`, `date`,
`observation_date`; the handler then re-discovers with only the first
three.  A non-empty fetch result is accepted exactly when one of those
three is a column, and the "no date field" error is surfaced exactly when
none of them is (never silently defaulted); an empty result gives the
"no data" warning instead.  In particular a record set whose only
candidate is `observation_date` is normalized but then rejected. -/
theorem C5_handler_discovery (records : List Row) (s e : Nat) :
    (run_fetch_handler records s e = FetchOutcome.emptyWarn ↔
      dfEmpty (fetch_df records s e) = true) ∧
    (run_fetch_handler records s e = FetchOutcome.noDateCol ↔
      dfEmpty (fetch_df records s e) = false ∧
      firstPresent handler_date_cols (dfCols (fetch_df records s e)) = none) ∧
    (∀ df, run_fetch_handler records s e = FetchOutcome.success df →
      df = fetch_df records s e ∧ dfEmpty df = false ∧
      ∃ c, firstPresent handler_date_cols (dfCols df) = some c) := by
  cases hde : dfEmpty (fetch_df records s e) with
  | true =>
    have hrun : run_fetch_handler records s e = FetchOutcome.emptyWarn := by
      simp [run_fetch_handler, hde]
    refine ⟨⟨fun _ => rfl, fun _ => hrun⟩, ⟨?_, ?_⟩, ?_⟩
    · intro h
      rw [hrun] at h
      exact absurd h (by simp)
    · intro h
      exact absurd h.1 (by simp)
    · intro df hdf
      rw [hrun] at hdf
      exact absurd hdf (by simp)
  | false =>
    cases hfp : firstPresent handler_date_cols (dfCols (fetch_df records s e)) with
    | none =>
      have hrun : run_fetch_handler records s e = FetchOutcome.noDateCol := by
        simp [run_fetch_handler, hde, hfp]
      refine ⟨⟨?_, ?_⟩, ⟨fun _ => ⟨rfl, rfl⟩, fun _ => hrun⟩, ?_⟩
      · intro h
        rw [hrun] at h
        exact absurd h (by simp)
      · intro h
        exact absurd h (by simp)
      · intro df hdf
        rw [hrun] at hdf
        exact absurd hdf (by simp)
    | some c =>
      have hrun : run_fetch_handler records s e =
          FetchOutcome.success (fetch_df records s e) := by
        simp [run_fetch_handler, hde, hfp]
      refine ⟨⟨?_, ?_⟩, ⟨?_, ?_⟩, ?_⟩
      · intro h
        rw [hrun] at h
        exact absurd h (by simp)
      · intro h
        exact absurd h (by simp)
      · intro h
        rw [hrun] at h
        exact absurd h (by simp)
      · intro h
        exact absurd h.2 (by simp)
      · intro df hdf
        rw [hrun, FetchOutcome.success.injEq] at hdf
        subst hdf
        exact ⟨rfl, hde, c, hfp⟩

/-- Witness for the amended C5: `obsRecords` is non-empty but rejected;
a record set keyed by `end_of_day` is accepted. -/
theorem C5_handler_discovery_witness :
    run_fetch_handler obsRecords 20230101 20231231 = FetchOutcome.noDateCol :=
  ((C5_handler_discovery obsRecords 20230101 20231231).2.1).mpr ⟨by decide, by decide⟩

/-- **C8.** In the classification loop a selected column is put on the
secondary (right) axis exactly when its unit text contains the
annualized-rate or percent marker, or its label text contains one of the
fixed rate/yield/exchange-rate/index keywords or the interbank-rate term
`hibor`; otherwise it is put on the primary (left) axis.  In particular a
column labelled with "yield" whose unit is `%` is classified secondary. -/
theorem C8_rate_classification :
    (∀ (meta : MetaTable) (sel : List String) (c : String),
        c ∈ (classifyStep meta sel).2 ↔
          c ∈ sel ∧ is_rate (get_display_info meta c) = true) ∧
    (∀ (meta : MetaTable) (sel : List String) (c : String),
        c ∈ (classifyStep meta sel).1 ↔
          c ∈ sel ∧ is_rate (get_display_info meta c) = false) ∧
    is_rate ⟨"10-year bond yield", "%"⟩ = true ∧
    classifyStep [("y", (some "bond yield", some "%"))] ["y"] = ([], ["y"]) := by
  refine ⟨?_, ?_, by decide, by decide⟩
  · intro meta sel c
    simp [classifyStep, List.mem_filter]
  · intro meta sel c
    simp [classifyStep, List.mem_filter]

/-- Metadata table holding one rate-like variable. -/
def metaY : MetaTable := [("y", (some "bond yield", some "%"))]

/-- Witness for C8: the `%`-unit column is classified secondary. -/
theorem C8_rate_classification_witness :
    "y" ∈ (classifyStep metaY ["y"]).2 :=
  (C8_rate_classification.1 metaY ["y"] "y").mpr ⟨by decide, by decide⟩

/-- **C9.** After classification (fallback included), primary and
secondary are disjoint, their union is exactly the selected variables,
and primary is non-empty whenever the selection is; when the heuristic
leaves primary empty with a non-empty secondary, the fallback moves every
column to primary and clears secondary. -/
theorem C9_axis_invariants (meta : MetaTable) (sel : List String) :
    (∀ c, ¬(c ∈ (classify meta sel).1 ∧ c ∈ (classify meta sel).2)) ∧
    (∀ c, (c ∈ (classify meta sel).1 ∨ c ∈ (classify meta sel).2) ↔ c ∈ sel) ∧
    (sel ≠ [] → (classify meta sel).1 ≠ []) ∧
    ((classifyStep meta sel).1 = [] → (classifyStep meta sel).2 ≠ [] →
      classify meta sel = ((classifyStep meta sel).2, [])) := by
  have hmem1 : ∀ c, c ∈ (classifyStep meta sel).1 ↔
      c ∈ sel ∧ is_rate (get_display_info meta c) = false := by
    intro c
    simp [classifyStep, List.mem_filter]
  have hmem2 : ∀ c, c ∈ (classifyStep meta sel).2 ↔
      c ∈ sel ∧ is_rate (get_display_info meta c) = true := by
    intro c
    simp [classifyStep, List.mem_filter]
  by_cases hc : ((classifyStep meta sel).1.isEmpty && !(classifyStep meta sel).2.isEmpty) = true
  · have hcl : classify meta sel = ((classifyStep meta sel).2, []) := by
      unfold classify
      rw [if_pos hc]
    rw [Bool.and_eq_true, List.isEmpty_eq_true, Bool.not_eq_true', List.isEmpty_eq_false] at hc
    refine ⟨?_, ?_, ?_, fun _ _ => hcl⟩
    · intro c h
      rw [hcl] at h
      exact absurd h.2 (List.not_mem_nil c)
    · intro c
      rw [hcl]
      constructor
      · rintro (h | h)
        · exact ((hmem2 c).mp h).1
        · exact absurd h (List.not_mem_nil c)
      · intro h
        left
        rcases hb : is_rate (get_display_info meta c) with _ | _
        · exact absurd ((hmem1 c).mpr ⟨h, hb⟩) (by rw [hc.1]; exact List.not_mem_nil c)
        · exact (hmem2 c).mpr ⟨h, hb⟩
    · intro _
      rw [hcl]
      exact hc.2
  · have hcl : classify meta sel = ((classifyStep meta sel).1, (classifyStep meta sel).2) := by
      unfold classify
      rw [if_neg hc]
    refine ⟨?_, ?_, ?_, ?_⟩
    · intro c h
      rw [hcl] at h
      have h1 := ((hmem1 c).mp h.1).2
      have h2 := ((hmem2 c).mp h.2).2
      rw [h1] at h2
      exact absurd h2 (by simp)
    · intro c
      rw [hcl]
      constructor
      · rintro (h | h)
        · exact ((hmem1 c).mp h).1
        · exact ((hmem2 c).mp h).1
      · intro h
        rcases hb : is_rate (get_display_info meta c) with _ | _
        · exact Or.inl ((hmem1 c).mpr ⟨h, hb⟩)
        · exact Or.inr ((hmem2 c).mpr ⟨h, hb⟩)
    · intro hsel
      rw [hcl]
      show (classifyStep meta sel).1 ≠ []
      intro hp
      have hs : (classifyStep meta sel).2 = [] := by
        by_contra hs
        exact hc (by simp [hp, List.isEmpty_eq_false.mpr hs])
      rcases sel with _ | ⟨c0, sel⟩
      · exact hsel rfl
      · have : c0 ∈ (classifyStep meta (c0 :: sel)).1 ∨
            c0 ∈ (classifyStep meta (c0 :: sel)).2 := by
          rcases hb : is_rate (get_display_info meta c0) with _ | _
          · exact Or.inl ((hmem1 c0).mpr ⟨List.mem_cons_self c0 sel, hb⟩)
          · exact Or.inr ((hmem2 c0).mpr ⟨List.mem_cons_self c0 sel, hb⟩)
        rcases this with h | h
        · rw [hp] at h
          exact absurd h (List.not_mem_nil c0)
        · rw [hs] at h
          exact absurd h (List.not_mem_nil c0)
    · intro h1 h2
      exact absurd (by simp [h1, List.isEmpty_eq_false.mpr h2]) hc

/-- Witness for C9: a selection consisting solely of a rate-like variable
fires the fallback and still has a non-empty primary axis. -/
theorem C9_axis_invariants_witness :
    (classify metaY ["y"]).1 ≠ [] ∧ classify metaY ["y"] = (["y"], []) :=
  ⟨(C9_axis_invariants metaY ["y"]).2.2.1 (by decide),
   (C9_axis_invariants metaY ["y"]).2.2.2 (by decide) (by decide)⟩

/-- **C10.** A numeric column is offered as a plottable variable exactly
when its lower-cased name contains none of `id`, `year`, `month`, `day`,
`rec_count` as a substring; consequently columns that are not identifiers
or date components but contain such a substring — `liquidity` (contains
`id`), `holiday_flag` (contains `day`) — are excluded as well. -/
theorem C10_substring_exclusion :
    (∀ (numeric_cols : List String) (c : String),
        c ∈ plot_options numeric_cols ↔
          c ∈ numeric_cols ∧ ∀ k ∈ exclude_keywords, containsSub k (lowerStr c) = false) ∧
    containsSub "id" (lowerStr "liquidity") = true ∧
    containsSub "day" (lowerStr "holiday_flag") = true ∧
    plot_options ["liquidity", "holiday_flag", "hibor_fixing_1m"] = ["hibor_fixing_1m"] := by
  refine ⟨?_, by decide, by decide, by decide⟩
  intro numeric_cols c
  simp [plot_options, List.mem_filter, List.any_eq_true]

/-- Witness for C10 at a concrete column list. -/
theorem C10_substring_exclusion_witness :
    "hibor_fixing_1m" ∈ plot_options ["liquidity", "holiday_flag", "hibor_fixing_1m"] :=
  (C10_substring_exclusion.1 ["liquidity", "holiday_flag", "hibor_fixing_1m"]
    "hibor_fixing_1m").mpr ⟨by decide, by decide⟩

/-- Seventeen records sharing one date, arriving in payload order
`0, 1, …, 16`. -/
def tiedRecords : List Row :=
  (List.range 17).map (fun k => [("end_of_day", some "2023-01-02"), ("v", some (toString k))])

/-- **C4.** Evaluation of the code at the failing input: seventeen rows
with equal parsed dates all survive range filtering with the same key,
and the sort the program actually performs — `sort_values` with the
default `kind="quicksort"`, i.e. numpy's introspective argsort — returns
the row order `[0, 14, 13, 12, 11, 10, 9, 15, 8, 6, 5, 4, 3, 2, 1, 7,
16]` rather than arrival order: tied dates do not preserve arrival order,
so the sort is not stable as the specification requires. -/
theorem C4_default_sort_permutes_ties :
    (∀ p ∈ rangeRows tiedRecords "end_of_day" 0 99999999, p.1 = 20230102) ∧
    aquicksortNumpy
        ((rangeRows tiedRecords "end_of_day" 0 99999999).map (fun p => (p.1 : Int))) =
      [0, 14, 13, 12, 11, 10, 9, 15, 8, 6, 5, 4, 3, 2, 1, 7, 16] ∧
    sort_values_quick (rangeRows tiedRecords "end_of_day" 0 99999999) ≠
      rangeRows tiedRecords "end_of_day" 0 99999999 := by
  refine ⟨by decide, by decide, by decide⟩
